import Mathlib

/-!
Verification of the request-caching layer of the repository: the disk-backed
expiring response cache (`ryutils/json_cache.py`, class `JsonCache`) and the
caching HTTP client (`ryutils/requests_helper.py`, class `RequestsHelper`),
exercised by `test/request_cache_test.py`.  The two implementation modules are
not shipped in this source snapshot (only their tests are), so the definitions
below are modelled from the specification and checked against the behaviour
the tests demand.  Timestamps are rationals (seconds), response payloads are
an opaque type with decidable equality, and parameter mappings are association
lists whose insertion order is normalized away by key generation.
-/

namespace RyUtils

/-- A parameter mapping as passed by a caller: an association list of
parameter name / value pairs.  The representation records insertion order;
key generation normalizes it away. -/
abbrev Params := List (String × String)

/-- Uppercasing of a string (the model of Python `str.upper()` applied to the
HTTP method), written by structural recursion over the character list. -/
def upper (s : String) : String := ⟨s.data.map Char.toUpper⟩

/-- Ordering of parameter pairs by parameter name (code-point lexicographic
order on the name), used for the canonical serialization. -/
def keyLe (p q : String × String) : Prop := p.1.data ≤ q.1.data

instance : DecidableRel keyLe := fun p q => inferInstanceAs (Decidable (p.1.data ≤ q.1.data))

instance : IsTotal (String × String) keyLe := ⟨fun p q => le_total p.1.data q.1.data⟩

instance : IsTrans (String × String) keyLe := ⟨fun _ _ _ h h2 => le_trans h h2⟩

/-- Modelled from the spec: the canonical serialization step of
`JsonCache._generate_key` — "produce a canonical serialization by sorting
entries by key name, independent of insertion order". -/
def canonicalize (ps : Params) : Params := List.insertionSort keyLe ps

/-- Modelled from the spec: the fixed-form cache key combining uppercased
method, endpoint and canonical parameter serialization.  The spec allows the
components to be hashed "or otherwise combine[d]" into a fixed form; we model
the combination as the injective triple itself. -/
structure CacheKey where
  method : String
  endpoint : String
  params : Option Params
deriving DecidableEq

/-- Modelled from the spec: `JsonCache._generate_key(method, endpoint,
params)` — uppercase the method, canonicalize the parameter mapping, combine
with the endpoint into the key. -/
def generate_key (method endpoint : String) (params : Option Params) : CacheKey :=
  { method := upper method
    endpoint := endpoint
    params := params.map canonicalize }

/-- Modelled from the spec: a `CacheEntry` persisted by `JsonCache` — payload,
capture timestamp, uppercase HTTP verb, request path, normalized params. -/
structure CacheEntry (α : Type) where
  data : α
  timestamp : ℚ
  method : String
  endpoint : String
  params : Option Params
deriving DecidableEq

/-- Modelled from the spec: the `JsonCache` store — a mapping from key to
entry plus the configured TTL and backing file path. -/
structure JsonCache (α : Type) where
  cache_file : String
  expiry_seconds : ℚ
  cache_data : List (CacheKey × CacheEntry α)
deriving DecidableEq

/-- A kernel-computable decision procedure for the age test
`expiry ≤ now - ts` on rationals, by integer cross-multiplication of the
numerators and denominators. -/
def ageDec (expiry ts now : ℚ) : Decidable (expiry ≤ now - ts) :=
  decidable_of_iff
    ((expiry.num * (ts.den : ℤ) + (expiry.den : ℤ) * ts.num) * (now.den : ℤ) ≤
      now.num * ((expiry.den : ℤ) * (ts.den : ℤ)))
    (by
      have key : ∀ (a c e : ℤ) (b d f : ℕ), 0 < b → 0 < d → 0 < f →
          ((a : ℚ) / (b : ℚ) + (c : ℚ) / (d : ℚ) ≤ (e : ℚ) / (f : ℚ) ↔
            (a * (d : ℤ) + (b : ℤ) * c) * (f : ℤ) ≤ e * ((b : ℤ) * (d : ℤ))) := by
        intro a c e b d f hb hd hf
        have hbq : ((b : ℚ)) ≠ 0 := by positivity
        have hdq : ((d : ℚ)) ≠ 0 := by positivity
        have hfq : ((f : ℚ)) > 0 := by positivity
        have hbdq : ((b : ℚ) * (d : ℚ)) > 0 := by positivity
        rw [div_add_div _ _ hbq hdq, div_le_div_iff₀ hbdq hfq]
        constructor
        · intro h; exact_mod_cast h
        · intro h; exact_mod_cast h
      have h := key expiry.num ts.num now.num expiry.den ts.den now.den
        expiry.pos ts.pos now.pos
      rw [Rat.num_div_den, Rat.num_div_den, Rat.num_div_den] at h
      rw [← le_sub_iff_add_le] at h
      exact h.symm)

/-- The age test `now - ts ≥ expiry` as a computable Boolean. -/
def entryExpired (expiry ts now : ℚ) : Bool :=
  @decide (expiry ≤ now - ts) (ageDec expiry ts now)

/-- First-match lookup in the key → entry association list. -/
def lookupEntry {α : Type} : List (CacheKey × CacheEntry α) → CacheKey → Option (CacheEntry α)
  | [], _ => none
  | kv :: rest, k => if kv.1 = k then some kv.2 else lookupEntry rest k

/-- Insert-or-replace in the key → entry association list (the semantics of a
dictionary assignment `self._cache_data[key] = entry`). -/
def insertEntry {α : Type} : List (CacheKey × CacheEntry α) → CacheKey → CacheEntry α →
    List (CacheKey × CacheEntry α)
  | [], k, e => [(k, e)]
  | kv :: rest, k, e => if kv.1 = k then (k, e) :: rest else kv :: insertEntry rest k e

/-- Whether an entry has aged past the store TTL at time `now`
(`now - entry.timestamp >= expiry_seconds`). -/
def JsonCache.isExpiredAt {α : Type} (c : JsonCache α) (now : ℚ) (e : CacheEntry α) : Bool :=
  entryExpired c.expiry_seconds e.timestamp now

/-- Modelled from the spec: `JsonCache.get(method, endpoint, params)` — miss
on absent key; hit past TTL is treated as a miss (lazy expiry, the entry is
not evicted); fresh hit returns the stored payload. -/
def JsonCache.get {α : Type} (c : JsonCache α) (now : ℚ) (method endpoint : String)
    (params : Option Params) : Option α :=
  match lookupEntry c.cache_data (generate_key method endpoint params) with
  | none => none
  | some e => if c.isExpiredAt now e then none else some e.data

/-- Modelled from the spec: `JsonCache.set(method, endpoint, data, params)` —
store `CacheEntry(data, now, method, endpoint, params)` under the generated
key, with the method uppercased and the params normalized as the data model
requires. -/
def JsonCache.set {α : Type} (c : JsonCache α) (now : ℚ) (method endpoint : String)
    (data : α) (params : Option Params) : JsonCache α :=
  { c with
    cache_data := insertEntry c.cache_data (generate_key method endpoint params)
      { data := data
        timestamp := now
        method := upper method
        endpoint := endpoint
        params := params.map canonicalize } }

/-- Modelled from the spec: the selection predicate of `JsonCache.clear` — an
entry matches when its stored method matches the filter case-insensitively
(if a method filter is given) and its stored endpoint matches the filter
exactly (if an endpoint filter is given); with no filters every entry
matches. -/
def entryMatches {α : Type} (e : CacheEntry α) (methodFilter endpointFilter : Option String) :
    Bool :=
  (match methodFilter with
   | none => true
   | some m => upper e.method == upper m) &&
  (match endpointFilter with
   | none => true
   | some ep => e.endpoint == ep)

/-- Modelled from the spec: `JsonCache.clear(method, endpoint)` — remove the
matching entries, keep the rest; removing zero entries is not an error. -/
def JsonCache.clear {α : Type} (c : JsonCache α) (methodFilter endpointFilter : Option String) :
    JsonCache α :=
  { c with cache_data := c.cache_data.filter fun kv => ! entryMatches kv.2 methodFilter endpointFilter }

/-- The record returned by `JsonCache.get_stats`. -/
structure CacheStats where
  total_entries : ℕ
  active_entries : ℕ
  expired_entries : ℕ
  expiry_seconds : ℚ
  cache_file : String
deriving DecidableEq

/-- Modelled from the spec: `JsonCache.get_stats()` — entry counts classified
against the current time without mutating the store, plus configuration. -/
def JsonCache.get_stats {α : Type} (c : JsonCache α) (now : ℚ) : CacheStats :=
  { total_entries := c.cache_data.length
    active_entries := (c.cache_data.filter fun kv => ! c.isExpiredAt now kv.2).length
    expired_entries := (c.cache_data.filter fun kv => c.isExpiredAt now kv.2).length
    expiry_seconds := c.expiry_seconds
    cache_file := c.cache_file }

/-- Modelled from the spec: persisting the store — the backing file is a
snapshot of the full key → entry mapping. -/
def saveCache {α : Type} (c : JsonCache α) : List (CacheKey × CacheEntry α) :=
  c.cache_data

/-- Modelled from the spec: `JsonCache` construction over a backing file — an
absent or unparsable file (`none`) yields an empty store; loaded entries whose
age at load time has reached the TTL are dropped. -/
def loadCache {α : Type} (cache_file : String) (expiry_seconds : ℚ)
    (file : Option (List (CacheKey × CacheEntry α))) (now : ℚ) : JsonCache α :=
  { cache_file := cache_file
    expiry_seconds := expiry_seconds
    cache_data := (file.getD []).filter fun kv => ! entryExpired expiry_seconds kv.2.timestamp now }

/-- One transport attempt's outcome, classified as the retry loop does:
success with a decoded body, a transient (retryable) failure, or a
non-retryable failure. -/
inductive Outcome (α : Type) where
  | success (payload : α)
  | retryable (err : String)
  | fatal (err : String)
deriving DecidableEq

/-- Result of the retry-wrapped transport call; both constructors carry the
number of transport invocations performed. -/
inductive CallResult (α : Type) where
  | ok (payload : α) (calls : ℕ)
  | failed (err : String) (calls : ℕ)
deriving DecidableEq

/-- The number of transport invocations recorded in a `CallResult`. -/
def CallResult.calls {α : Type} : CallResult α → ℕ
  | .ok _ n => n
  | .failed _ n => n

/-- Modelled from the spec: the attempt loop of
`RequestsHelper._make_request_with_retry`, from attempt index `i` with `fuel`
attempts remaining.  A transport (`t`) maps the attempt index to that
attempt's outcome.  Success returns the body; a non-retryable failure stops
immediately; a transient failure re-attempts while attempts remain and
otherwise fails with the last observed error. -/
def retryFrom {α : Type} (t : ℕ → Outcome α) (i : ℕ) : ℕ → CallResult α
  | 0 => .failed "" i
  | fuel + 1 =>
    match t i with
    | .success p => .ok p (i + 1)
    | .fatal e => .failed e (i + 1)
    | .retryable e =>
      if fuel = 0 then .failed e (i + 1) else retryFrom t (i + 1) fuel

/-- Modelled from the spec: `RequestsHelper._make_request_with_retry` with a
budget of `maxAttempts` attempts. -/
def callWithRetry {α : Type} (t : ℕ → Outcome α) (maxAttempts : ℕ) : CallResult α :=
  retryFrom t 0 maxAttempts

/-- Modelled from the spec: the `RequestsHelper` client — base URL, optional
owned cache store (absent means caching disabled), retry budget. -/
structure RequestsHelper (α : Type) where
  base_url : String
  cache : Option (JsonCache α)
  max_attempts : ℕ
deriving DecidableEq

/-- Modelled from the spec: `RequestsHelper` construction — when
`cache_expiry_seconds` is absent no cache store is created and caching is
disabled entirely; when present a `JsonCache` with that TTL is constructed
over the configured cache file. -/
def RequestsHelper.init {α : Type} (base_url : String) (cache_expiry_seconds : Option ℚ)
    (cache_file : String) (file : Option (List (CacheKey × CacheEntry α))) (now : ℚ)
    (max_attempts : ℕ) : RequestsHelper α :=
  { base_url := base_url
    cache := cache_expiry_seconds.map fun exp => loadCache cache_file exp file now
    max_attempts := max_attempts }

/-- Modelled from the spec: `RequestsHelper.get(endpoint, params)` — with
caching enabled, a fresh cache hit returns immediately with no transport
call; on a miss (or with caching disabled) the retry-wrapped transport call
runs, and a successful result is stored back into the cache.  Returns the
result (whose `calls` field counts transport invocations for this call) and
the updated client. -/
def RequestsHelper.getReq {α : Type} (h : RequestsHelper α) (now : ℚ) (t : ℕ → Outcome α)
    (endpoint : String) (params : Option Params) : CallResult α × RequestsHelper α :=
  match h.cache with
  | some c =>
    match c.get now "GET" endpoint params with
    | some v => (.ok v 0, h)
    | none =>
      match callWithRetry t h.max_attempts with
      | .ok p n => (.ok p n, { h with cache := some (c.set now "GET" endpoint p params) })
      | .failed e n => (.failed e n, h)
  | none => (callWithRetry t h.max_attempts, h)

/-- Modelled from the spec: the shared mutating-call path of
`RequestsHelper.post` / `put` / `delete` — always call through the retry
wrapper (never served from cache); on success, with caching enabled, clear
the cache entries at the invalidation scope: `cache_clear_path` when given,
else the call's own endpoint, for all HTTP methods at that path. -/
def RequestsHelper.mutReq {α : Type} (h : RequestsHelper α) (t : ℕ → Outcome α)
    (endpoint : String) (cache_clear_path : Option String) :
    CallResult α × RequestsHelper α :=
  match callWithRetry t h.max_attempts with
  | .ok p n =>
    match h.cache with
    | some c =>
      (.ok p n, { h with cache := some (c.clear none (some (cache_clear_path.getD endpoint))) })
    | none => (.ok p n, h)
  | .failed e n => (.failed e n, h)

/-- Modelled from the spec: `RequestsHelper.post(endpoint, body,
cache_clear_path)`. -/
def RequestsHelper.post {α β : Type} (h : RequestsHelper α) (t : ℕ → Outcome α)
    (endpoint : String) (_body : β) (cache_clear_path : Option String) :
    CallResult α × RequestsHelper α :=
  h.mutReq t endpoint cache_clear_path

/-- Modelled from the spec: `RequestsHelper.put(endpoint, body,
cache_clear_path)`. -/
def RequestsHelper.put {α β : Type} (h : RequestsHelper α) (t : ℕ → Outcome α)
    (endpoint : String) (_body : β) (cache_clear_path : Option String) :
    CallResult α × RequestsHelper α :=
  h.mutReq t endpoint cache_clear_path

/-- Modelled from the spec: `RequestsHelper.delete(endpoint,
cache_clear_path)`. -/
def RequestsHelper.delete {α : Type} (h : RequestsHelper α) (t : ℕ → Outcome α)
    (endpoint : String) (cache_clear_path : Option String) :
    CallResult α × RequestsHelper α :=
  h.mutReq t endpoint cache_clear_path

/-- Well-formedness of a store mapping: the keys are pairwise distinct (a
dictionary cannot hold two bindings of one key). -/
def NodupKeys {α : Type} (l : List (CacheKey × CacheEntry α)) : Prop :=
  (l.map Prod.fst).Nodup

instance {α : Type} (l : List (CacheKey × CacheEntry α)) : Decidable (NodupKeys l) :=
  inferInstanceAs (Decidable (l.map Prod.fst).Nodup)

/-! ### Concrete instances mirroring the fixtures of `request_cache_test.py` -/

/-- An empty store with a one-second TTL, as in the test fixtures. -/
def emptyStore : JsonCache String :=
  { cache_file := "cache.json", expiry_seconds := 1, cache_data := [] }

/-- The store after caching one value, as in `test_cache_set_and_get`. -/
def storeOne : JsonCache String := emptyStore.set 0 "GET" "/test" "value" none

/-- A store holding `(GET,/a)`, `(POST,/a)`, `(GET,/b)`, as in the selective
clear scenarios. -/
def storeAb : JsonCache String :=
  ((emptyStore.set 0 "GET" "/a" "1" none).set 0 "POST" "/a" "2" none).set 0 "GET" "/b" "3" none

/-- A store holding GET entries at `/api/events`, `/api/events/123` and
`/api/users`, as in `test_post_with_cache_clear_path`. -/
def eventsStore : JsonCache String :=
  ((emptyStore.set 0 "GET" "/api/events" "events" none).set 0 "GET" "/api/events/123"
    "specific" none).set 0 "GET" "/api/users" "users" none

/-- A client over `eventsStore` with three retry attempts. -/
def eventsHelper : RequestsHelper String :=
  { base_url := "https://api.example.com", cache := some eventsStore, max_attempts := 3 }

/-- A client over the empty store. -/
def cacheHelper : RequestsHelper String :=
  { base_url := "https://api.example.com", cache := some emptyStore, max_attempts := 3 }

/-- A transport stub that always succeeds. -/
def okTransport : ℕ → Outcome String := fun _ => .success "P"

/-- A transport stub that fails transiently twice and then succeeds. -/
def flakyTransport : ℕ → Outcome String :=
  fun i => if i < 2 then .retryable "boom" else .success "P"

/-- A transport stub that always fails non-retryably. -/
def fatalTransport : ℕ → Outcome String := fun _ => .fatal "bad"

/-! ### Support lemmas -/

theorem entryExpired_eq_true_iff (expiry ts now : ℚ) :
    entryExpired expiry ts now = true ↔ expiry ≤ now - ts := by
  unfold entryExpired
  constructor
  · exact fun h => @of_decide_eq_true _ (ageDec expiry ts now) h
  · exact fun h => @decide_eq_true _ (ageDec expiry ts now) h

theorem entryExpired_eq_false_iff (expiry ts now : ℚ) :
    entryExpired expiry ts now = false ↔ ¬ expiry ≤ now - ts := by
  rw [← entryExpired_eq_true_iff]
  cases h : entryExpired expiry ts now <;> simp

theorem keyLe_antisymm_fst {p q : String × String} (h1 : keyLe p q) (h2 : keyLe q p) :
    p.1 = q.1 := by
  have hd : p.1.data = q.1.data := le_antisymm h1 h2
  exact congrArg String.mk hd

theorem canonicalize_perm (ps : Params) : List.Perm (canonicalize ps) ps :=
  List.perm_insertionSort keyLe ps

theorem canonicalize_sorted (ps : Params) : List.Sorted keyLe (canonicalize ps) :=
  List.sorted_insertionSort keyLe ps

theorem eq_of_sorted_perm_nodup :
    ∀ {s1 s2 : Params}, List.Perm s1 s2 → List.Sorted keyLe s1 → List.Sorted keyLe s2 →
      (s1.map Prod.fst).Nodup → s1 = s2 := by
  intro s1
  induction s1 with
  | nil =>
    intro s2 hp _ _ _
    exact (hp.symm.eq_nil).symm
  | cons a t ih =>
    intro s2 hp hs1 hs2 hnd
    cases s2 with
    | nil => exact absurd hp.eq_nil (by simp)
    | cons b t2 =>
      have hnd2 : a.1 ∉ t.map Prod.fst ∧ (t.map Prod.fst).Nodup := by
        rw [List.map_cons, List.nodup_cons] at hnd
        exact hnd
      have hab : a = b := by
        have ha2 : a ∈ b :: t2 := hp.subset (List.mem_cons_self a t)
        have hb1 : b ∈ a :: t := hp.symm.subset (List.mem_cons_self b t2)
        rcases List.mem_cons.mp ha2 with h | ha3
        · exact h
        rcases List.mem_cons.mp hb1 with h | hb3
        · exact h.symm
        have h1 : keyLe a b := List.rel_of_sorted_cons hs1 b hb3
        have h2 : keyLe b a := List.rel_of_sorted_cons hs2 a ha3
        have hfst : a.1 = b.1 := keyLe_antisymm_fst h1 h2
        exfalso
        have hmem : a.1 ∈ t.map Prod.fst := by
          rw [hfst]
          exact List.mem_map_of_mem Prod.fst hb3
        exact hnd2.1 hmem
      subst hab
      have htp : List.Perm t t2 := hp.cons_inv
      have htl := ih htp hs1.of_cons hs2.of_cons hnd2.2
      rw [htl]

theorem canonicalize_eq_of_perm {ps1 ps2 : Params} (h : List.Perm ps1 ps2)
    (hnd : (ps1.map Prod.fst).Nodup) : canonicalize ps1 = canonicalize ps2 := by
  refine eq_of_sorted_perm_nodup ?_ (canonicalize_sorted ps1) (canonicalize_sorted ps2) ?_
  · exact (canonicalize_perm ps1).trans (h.trans (canonicalize_perm ps2).symm)
  · exact (((canonicalize_perm ps1).map Prod.fst).nodup_iff).mpr hnd

theorem perm_of_canonicalize_eq {ps1 ps2 : Params} (h : canonicalize ps1 = canonicalize ps2) :
    List.Perm ps1 ps2 :=
  ((canonicalize_perm ps1).symm.trans (h ▸ canonicalize_perm ps2))

theorem lookupEntry_insertEntry_self {α : Type} (l : List (CacheKey × CacheEntry α))
    (k : CacheKey) (e : CacheEntry α) : lookupEntry (insertEntry l k e) k = some e := by
  induction l with
  | nil => simp [insertEntry, lookupEntry]
  | cons kv rest ih =>
    by_cases h : kv.1 = k
    · simp [insertEntry, h, lookupEntry]
    · simp [insertEntry, h, lookupEntry, ih]

theorem lookupEntry_insertEntry_ne {α : Type} (l : List (CacheKey × CacheEntry α))
    {k k2 : CacheKey} (e : CacheEntry α) (h : k2 ≠ k) :
    lookupEntry (insertEntry l k e) k2 = lookupEntry l k2 := by
  induction l with
  | nil => simp [insertEntry, lookupEntry, Ne.symm h]
  | cons kv rest ih =>
    by_cases hk : kv.1 = k
    · have : ¬ kv.1 = k2 := by rw [hk]; exact Ne.symm h
      simp [insertEntry, hk, lookupEntry, Ne.symm h, this]
    · by_cases hk2 : kv.1 = k2
      · simp [insertEntry, hk, lookupEntry, hk2, h]
      · simp [insertEntry, hk, lookupEntry, hk2, ih]

theorem lookupEntry_eq_none_iff {α : Type} {l : List (CacheKey × CacheEntry α)} {k : CacheKey} :
    lookupEntry l k = none ↔ k ∉ l.map Prod.fst := by
  induction l with
  | nil => simp [lookupEntry]
  | cons kv rest ih =>
    by_cases h : kv.1 = k
    · simp [lookupEntry, h]
    · simp [lookupEntry, h, ih, Ne.symm h]

theorem lookupEntry_mem {α : Type} {l : List (CacheKey × CacheEntry α)} {k : CacheKey}
    {e : CacheEntry α} (h : lookupEntry l k = some e) : (k, e) ∈ l := by
  induction l with
  | nil => simp [lookupEntry] at h
  | cons kv rest ih =>
    by_cases hk : kv.1 = k
    · simp [lookupEntry, hk] at h
      have hkv : (k, e) = kv := by rw [← hk, ← h]
      rw [hkv]
      exact List.mem_cons_self kv rest
    · simp [lookupEntry, hk] at h
      exact List.mem_cons_of_mem kv (ih h)

theorem mem_map_fst_insertEntry {α : Type} {l : List (CacheKey × CacheEntry α)}
    {k x : CacheKey} {e : CacheEntry α} :
    x ∈ (insertEntry l k e).map Prod.fst ↔ x = k ∨ x ∈ l.map Prod.fst := by
  induction l with
  | nil => simp [insertEntry]
  | cons kv rest ih =>
    by_cases hk : kv.1 = k
    · simp [insertEntry, hk]
    · simp only [insertEntry, hk, if_false, List.map_cons, List.mem_cons, ih]
      tauto

theorem nodupKeys_insertEntry {α : Type} {l : List (CacheKey × CacheEntry α)}
    {k : CacheKey} {e : CacheEntry α} (h : NodupKeys l) : NodupKeys (insertEntry l k e) := by
  induction l with
  | nil => simp [NodupKeys, insertEntry]
  | cons kv rest ih =>
    unfold NodupKeys at h ⊢
    rw [List.map_cons, List.nodup_cons] at h
    by_cases hk : kv.1 = k
    · simp only [insertEntry, hk, if_true, List.map_cons, List.nodup_cons]
      rw [hk] at h
      exact h
    · simp only [insertEntry, hk, if_false, List.map_cons, List.nodup_cons]
      constructor
      · intro hc
        rcases mem_map_fst_insertEntry.mp hc with h1 | h2
        · exact hk h1
        · exact h.1 h2
      · exact ih h.2

theorem nodupKeys_filter {α : Type} {l : List (CacheKey × CacheEntry α)}
    (p : CacheKey × CacheEntry α → Bool) (h : NodupKeys l) : NodupKeys (l.filter p) :=
  ((List.filter_sublist l).map Prod.fst).nodup h

theorem lookupEntry_filter {α : Type} {l : List (CacheKey × CacheEntry α)}
    (hnd : NodupKeys l) (p : CacheKey × CacheEntry α → Bool) (k : CacheKey) :
    lookupEntry (l.filter p) k =
      match lookupEntry l k with
      | none => none
      | some e => if p (k, e) then some e else none := by
  induction l with
  | nil => simp [lookupEntry]
  | cons kv rest ih =>
    unfold NodupKeys at hnd
    rw [List.map_cons, List.nodup_cons] at hnd
    by_cases hk : kv.1 = k
    · have hkv : (k, kv.2) = kv := by rw [← hk]
      by_cases hp : p kv
      · rw [List.filter_cons_of_pos hp]
        simp [lookupEntry, hk, hkv, hp]
      · rw [List.filter_cons_of_neg (by simpa using hp)]
        have hnone : lookupEntry (rest.filter p) k = none := by
          rw [lookupEntry_eq_none_iff]
          intro hc
          have := ((List.filter_sublist rest).map Prod.fst).subset hc
          rw [← hk] at this
          exact hnd.1 this
        simp [lookupEntry, hk, hkv, hp, hnone]
    · by_cases hp : p kv
      · rw [List.filter_cons_of_pos hp]
        simp only [lookupEntry, hk, if_false]
        exact ih hnd.2
      · rw [List.filter_cons_of_neg (by simpa using hp)]
        simp only [lookupEntry, hk, if_false]
        exact ih hnd.2

theorem get_set_self {α : Type} (c : JsonCache α) (now now2 : ℚ) (m e : String) (d : α)
    (p : Option Params) (hfresh : ¬ c.expiry_seconds ≤ now2 - now) :
    (c.set now m e d p).get now2 m e p = some d := by
  unfold JsonCache.get JsonCache.set
  rw [lookupEntry_insertEntry_self]
  have hxp : entryExpired c.expiry_seconds now now2 = false :=
    (entryExpired_eq_false_iff _ _ _).mpr hfresh
  simp [JsonCache.isExpiredAt, hxp]

theorem get_set_ne {α : Type} (c : JsonCache α) (now now2 : ℚ) {m e : String}
    {p : Option Params} {m2 e2 : String} {p2 : Option Params} (d : α)
    (hne : generate_key m2 e2 p2 ≠ generate_key m e p) :
    (c.set now m e d p).get now2 m2 e2 p2 = c.get now2 m2 e2 p2 := by
  unfold JsonCache.get JsonCache.set
  rw [lookupEntry_insertEntry_ne _ _ hne]
  rfl

theorem mem_clear_iff {α : Type} (c : JsonCache α) (mf ef : Option String)
    (kv : CacheKey × CacheEntry α) :
    kv ∈ (c.clear mf ef).cache_data ↔
      kv ∈ c.cache_data ∧ entryMatches kv.2 mf ef = false := by
  simp [JsonCache.clear, List.mem_filter]

theorem clear_eq_self_of_no_match {α : Type} (c : JsonCache α) {mf ef : Option String}
    (h : ∀ kv ∈ c.cache_data, entryMatches kv.2 mf ef = false) : c.clear mf ef = c := by
  unfold JsonCache.clear
  have hf : c.cache_data.filter (fun kv => ! entryMatches kv.2 mf ef) = c.cache_data :=
    List.filter_eq_self.mpr (by intro a ha; simp [h a ha])
  rw [hf]

theorem retryFrom_success {α : Type} {t : ℕ → Outcome α} {i fuel : ℕ} {p : α}
    (hf : 1 ≤ fuel) (h : t i = .success p) : retryFrom t i fuel = .ok p (i + 1) := by
  obtain ⟨f, rfl⟩ : ∃ f, fuel = f + 1 := ⟨fuel - 1, by omega⟩
  simp [retryFrom, h]

theorem retryFrom_fatal {α : Type} {t : ℕ → Outcome α} {i fuel : ℕ} {e : String}
    (hf : 1 ≤ fuel) (h : t i = .fatal e) : retryFrom t i fuel = .failed e (i + 1) := by
  obtain ⟨f, rfl⟩ : ∃ f, fuel = f + 1 := ⟨fuel - 1, by omega⟩
  simp [retryFrom, h]

theorem retryFrom_retryable_cont {α : Type} {t : ℕ → Outcome α} {i : ℕ} {e : String}
    (f : ℕ) (h : t i = .retryable e) :
    retryFrom t i (f + 2) = retryFrom t (i + 1) (f + 1) := by
  show retryFrom t i ((f + 1) + 1) = retryFrom t (i + 1) (f + 1)
  simp [retryFrom, h]

theorem retryFrom_failed_src {α : Type} {t : ℕ → Outcome α} :
    ∀ {fuel i : ℕ} {e : String} {n : ℕ}, 1 ≤ fuel → retryFrom t i fuel = .failed e n →
      t (n - 1) = .retryable e ∨ t (n - 1) = .fatal e := by
  intro fuel
  induction fuel with
  | zero => intro i e n h1 _; exact absurd h1 (by omega)
  | succ f ih =>
    intro i e n _ h
    simp only [retryFrom] at h
    cases ht : t i with
    | success p => rw [ht] at h; simp at h
    | fatal e2 =>
      rw [ht] at h
      simp at h
      right
      rw [show n - 1 = i from by omega, ht, h.1]
    | retryable e2 =>
      rw [ht] at h
      by_cases hf : f = 0
      · subst hf
        simp at h
        left
        rw [show n - 1 = i from by omega, ht, h.1]
      · simp [hf] at h
        exact ih (by omega) h

theorem callWithRetry_success_first {α : Type} {t : ℕ → Outcome α} {maxA : ℕ} {p : α}
    (h1 : 1 ≤ maxA) (h0 : t 0 = .success p) : callWithRetry t maxA = .ok p 1 :=
  retryFrom_success h1 h0

theorem callWithRetry_fatal_first {α : Type} {t : ℕ → Outcome α} {maxA : ℕ} {e : String}
    (h1 : 1 ≤ maxA) (h0 : t 0 = .fatal e) : callWithRetry t maxA = .failed e 1 :=
  retryFrom_fatal h1 h0

theorem callWithRetry_two_transient {α : Type} {t : ℕ → Outcome α} {maxA : ℕ}
    {e0 e1 : String} {p : α} (h3 : 3 ≤ maxA) (h0 : t 0 = .retryable e0)
    (h1 : t 1 = .retryable e1) (h2 : t 2 = .success p) :
    callWithRetry t maxA = .ok p 3 := by
  obtain ⟨m, rfl⟩ : ∃ m, maxA = m + 3 := ⟨maxA - 3, by omega⟩
  calc callWithRetry t (m + 3) = retryFrom t 0 ((m + 1) + 2) := rfl
    _ = retryFrom t 1 ((m + 1) + 1) := retryFrom_retryable_cont (m + 1) h0
    _ = retryFrom t 2 (m + 1) := retryFrom_retryable_cont m h1
    _ = .ok p 3 := retryFrom_success (by omega) h2

theorem callWithRetry_failed_src {α : Type} {t : ℕ → Outcome α} {maxA : ℕ} {e : String}
    {n : ℕ} (h1 : 1 ≤ maxA) (h : callWithRetry t maxA = .failed e n) :
    t (n - 1) = .retryable e ∨ t (n - 1) = .fatal e :=
  retryFrom_failed_src h1 h

/-! ### Claims -/

/-- C4 counterexample: the claim quantifies over every method string, but key
generation uppercases the method first, so the calls with methods `"get"` and
`"GET"` differ in method yet produce identical keys. -/
theorem claim_C4_counterexample :
    generate_key "get" "/t" none = generate_key "GET" "/t" none ∧ "get" ≠ "GET" :=
  ⟨by decide, by decide⟩

/-- C4 (amended): the cache key is a deterministic function of (uppercased
method, endpoint, parameter set): permuting a parameter mapping (with unique
parameter names) leaves the key unchanged, and two calls yielding the same
key agree on the uppercased method, the endpoint, and (as permutations, so in
every parameter value) the parameter mapping. -/
theorem claim_C4 :
    (∀ (m e : String) (p1 p2 : Params), List.Perm p1 p2 → (p1.map Prod.fst).Nodup →
        generate_key m e (some p1) = generate_key m e (some p2)) ∧
    (∀ (m1 e1 : String) (p1 : Option Params) (m2 e2 : String) (p2 : Option Params),
        generate_key m1 e1 p1 = generate_key m2 e2 p2 →
          upper m1 = upper m2 ∧ e1 = e2 ∧ p1.map canonicalize = p2.map canonicalize) ∧
    (∀ (m1 e1 : String) (p1 : Params) (m2 e2 : String) (p2 : Params),
        generate_key m1 e1 (some p1) = generate_key m2 e2 (some p2) → List.Perm p1 p2) := by
  refine ⟨?_, ?_, ?_⟩
  · intro m e p1 p2 hperm hnd
    unfold generate_key
    simp [canonicalize_eq_of_perm hperm hnd]
  · intro m1 e1 p1 m2 e2 p2 hk
    simpa [generate_key, CacheKey.mk.injEq] using hk
  · intro m1 e1 p1 m2 e2 p2 hk
    have h2 : some (canonicalize p1) = some (canonicalize p2) := by
      have := congrArg CacheKey.params hk
      simpa [generate_key] using this
    exact perm_of_canonicalize_eq (Option.some.inj h2)

/-- C4 witness: the amended claim at the test's concrete inputs. -/
theorem claim_C4_witness :
    generate_key "GET" "/test" (some [("a", "1"), ("b", "2")]) =
      generate_key "GET" "/test" (some [("b", "2"), ("a", "1")]) :=
  claim_C4.1 "GET" "/test" [("a", "1"), ("b", "2")] [("b", "2"), ("a", "1")]
    (List.Perm.swap ("b", "2") ("a", "1") []) (by decide)

/-- C5: a store `get` misses on an absent key; on a present key it returns
the payload when the entry is fresh and "not found" when
`now - timestamp >= expiry_seconds`, in which case the stale entry stays in
the mapping (lazy expiry, no eviction on read). -/
theorem claim_C5 {α : Type} (c : JsonCache α) (now : ℚ) (m e : String) (p : Option Params) :
    (lookupEntry c.cache_data (generate_key m e p) = none → c.get now m e p = none) ∧
    (∀ ent, lookupEntry c.cache_data (generate_key m e p) = some ent →
      (c.expiry_seconds ≤ now - ent.timestamp →
          c.get now m e p = none ∧ (generate_key m e p, ent) ∈ c.cache_data) ∧
      (¬ c.expiry_seconds ≤ now - ent.timestamp → c.get now m e p = some ent.data)) := by
  constructor
  · intro h
    unfold JsonCache.get
    rw [h]
  · intro ent h
    constructor
    · intro hexp
      refine ⟨?_, lookupEntry_mem h⟩
      unfold JsonCache.get
      rw [h]
      have hb : entryExpired c.expiry_seconds ent.timestamp now = true :=
        (entryExpired_eq_true_iff _ _ _).mpr hexp
      simp [JsonCache.isExpiredAt, hb]
    · intro hfresh
      unfold JsonCache.get
      rw [h]
      have hb : entryExpired c.expiry_seconds ent.timestamp now = false :=
        (entryExpired_eq_false_iff _ _ _).mpr hfresh
      simp [JsonCache.isExpiredAt, hb]

/-- C5 witness: with a one-second TTL, the stored value is returned at 0.5s,
is "not found" at 1.1s while the stale entry is still in the mapping, and an
absent key misses. -/
theorem claim_C5_witness :
    storeOne.get (Rat.mk' 1 2) "GET" "/test" none = some "value" ∧
    (storeOne.get (Rat.mk' 11 10) "GET" "/test" none = none ∧
      (generate_key "GET" "/test" none,
        { data := "value", timestamp := 0, method := "GET", endpoint := "/test",
          params := none }) ∈ storeOne.cache_data) ∧
    emptyStore.get 0 "GET" "/missing" none = none :=
  ⟨((claim_C5 storeOne (Rat.mk' 1 2) "GET" "/test" none).2
      { data := "value", timestamp := 0, method := "GET", endpoint := "/test", params := none }
      (by decide)).2 ((entryExpired_eq_false_iff _ _ _).mp (by decide)),
   ((claim_C5 storeOne (Rat.mk' 11 10) "GET" "/test" none).2
      { data := "value", timestamp := 0, method := "GET", endpoint := "/test", params := none }
      (by decide)).1 ((entryExpired_eq_true_iff _ _ _).mp (by decide)),
   (claim_C5 emptyStore 0 "GET" "/missing" none).1 (by decide)⟩

/-- C6: `clear()` with no filters removes everything; a method filter removes
exactly the entries whose stored method matches case-insensitively; an
endpoint filter removes exactly the entries whose stored endpoint matches
exactly; both filters remove exactly the entries matching both; and a clear
matching nothing is a no-op, not an error. -/
theorem claim_C6 {α : Type} (c : JsonCache α) :
    (c.clear none none).cache_data = [] ∧
    (∀ (m : String) (kv : CacheKey × CacheEntry α),
        kv ∈ (c.clear (some m) none).cache_data ↔
          kv ∈ c.cache_data ∧ ¬ upper kv.2.method = upper m) ∧
    (∀ (ep : String) (kv : CacheKey × CacheEntry α),
        kv ∈ (c.clear none (some ep)).cache_data ↔
          kv ∈ c.cache_data ∧ ¬ kv.2.endpoint = ep) ∧
    (∀ (m ep : String) (kv : CacheKey × CacheEntry α),
        kv ∈ (c.clear (some m) (some ep)).cache_data ↔
          kv ∈ c.cache_data ∧ ¬ (upper kv.2.method = upper m ∧ kv.2.endpoint = ep)) ∧
    (∀ (mf ef : Option String), (∀ kv ∈ c.cache_data, entryMatches kv.2 mf ef = false) →
        c.clear mf ef = c) := by
  refine ⟨?_, ?_, ?_, ?_, fun mf ef h => clear_eq_self_of_no_match c h⟩
  · simp [JsonCache.clear, entryMatches]
  · intro m kv
    rw [mem_clear_iff]
    simp [entryMatches]
  · intro ep kv
    rw [mem_clear_iff]
    simp [entryMatches]
  · intro m ep kv
    rw [mem_clear_iff]
    simp only [entryMatches, Bool.and_eq_false_iff, beq_eq_false_iff_ne, ne_eq]
    tauto

/-- C6 witness: the selective-clear scenario of the tests, plus a clear that
matches nothing leaving the store unchanged. -/
theorem claim_C6_witness :
    (storeAb.clear none none).cache_data = [] ∧
    storeAb.clear (some "PUT") none = storeAb :=
  ⟨(claim_C6 storeAb).1,
   (claim_C6 storeAb).2.2.2.2 (some "PUT") none (by decide)⟩

/-- C8: on a store with a positive TTL, `set(m,e,d,p)` followed immediately
by `get(m,e,p)` returns exactly `d`, while a `get` for a key with no entry
returns "not found". -/
theorem claim_C8 {α : Type} (c : JsonCache α) (now : ℚ) (m e : String) (d : α)
    (p : Option Params) (hpos : 0 < c.expiry_seconds) :
    (c.set now m e d p).get now m e p = some d ∧
    (lookupEntry c.cache_data (generate_key m e p) = none → c.get now m e p = none) := by
  constructor
  · refine get_set_self c now now m e d p ?_
    rw [sub_self]
    exact not_le.mpr hpos
  · intro h
    unfold JsonCache.get
    rw [h]

/-- C8 witness: the round trip at the test's concrete inputs. -/
theorem claim_C8_witness :
    (emptyStore.set 0 "GET" "/test" "d" (some [("param", "value")])).get 0 "GET" "/test"
        (some [("param", "value")]) = some "d" ∧
    emptyStore.get 0 "GET" "/test" (some [("param", "value")]) = none :=
  ⟨(claim_C8 emptyStore 0 "GET" "/test" "d" (some [("param", "value")]) (by decide)).1,
   (claim_C8 emptyStore 0 "GET" "/test" "d" (some [("param", "value")]) (by decide)).2
     (by decide)⟩

/-- C10: `get_stats` classifies every stored entry as exactly one of active
or expired, so the counts always satisfy `total = active + expired`, and the
reported TTL and cache-file path are the store's configuration. -/
theorem claim_C10 {α : Type} (c : JsonCache α) (now : ℚ) :
    (c.get_stats now).total_entries =
        (c.get_stats now).active_entries + (c.get_stats now).expired_entries ∧
    (c.get_stats now).expiry_seconds = c.expiry_seconds ∧
    (c.get_stats now).cache_file = c.cache_file := by
  refine ⟨?_, rfl, rfl⟩
  unfold JsonCache.get_stats
  rw [List.length_eq_length_filter_add (fun kv => c.isExpiredAt now kv.2)]
  exact Nat.add_comm _ _

/-- C3: a transport failing transiently twice then succeeding yields one
successful result with exactly 3 invocations; a non-retryable failure is
invoked exactly once; and a `Failed` outcome carries the error observed at
the final attempt — it is never silently swallowed. -/
theorem claim_C3 {α : Type} (t : ℕ → Outcome α) (maxA : ℕ) :
    (∀ (e0 e1 : String) (p : α), 3 ≤ maxA → t 0 = .retryable e0 → t 1 = .retryable e1 →
        t 2 = .success p → callWithRetry t maxA = .ok p 3) ∧
    (∀ (e : String), 1 ≤ maxA → t 0 = .fatal e → callWithRetry t maxA = .failed e 1) ∧
    (∀ (e : String) (n : ℕ), 1 ≤ maxA → callWithRetry t maxA = .failed e n →
        t (n - 1) = .retryable e ∨ t (n - 1) = .fatal e) :=
  ⟨fun _ _ _ h3 h0 h1 h2 => callWithRetry_two_transient h3 h0 h1 h2,
   fun _ h1 h0 => callWithRetry_fatal_first h1 h0,
   fun _ _ h1 h => callWithRetry_failed_src h1 h⟩

/-- C3 witness: the retry scenarios at the concrete transport stubs. -/
theorem claim_C3_witness :
    callWithRetry flakyTransport 3 = .ok "P" 3 ∧
    callWithRetry fatalTransport 3 = .failed "bad" 1 ∧
    (fatalTransport 0 = .retryable "bad" ∨ fatalTransport 0 = .fatal "bad") :=
  ⟨(claim_C3 flakyTransport 3).1 "boom" "boom" "P" (by decide) rfl rfl rfl,
   (claim_C3 fatalTransport 3).2.1 "bad" (by decide) rfl,
   (claim_C3 fatalTransport 3).2.2 "bad" 1 (by decide)
     ((claim_C3 fatalTransport 3).2.1 "bad" (by decide) rfl)⟩

/-- C9: constructing the client without a TTL creates no cache store and
every get goes to the transport (two identical gets make two calls, one
each); constructing with a TTL creates a store with exactly that TTL. -/
theorem claim_C9 {α : Type} (b cf : String) (file : Option (List (CacheKey × CacheEntry α)))
    (now : ℚ) (ma : ℕ) (exp : ℚ) (t : ℕ → Outcome α) (p : α) (ep : String)
    (par : Option Params) (hma : 1 ≤ ma) (ht : t 0 = .success p) :
    (RequestsHelper.init b none cf file now ma : RequestsHelper α).cache = none ∧
    (RequestsHelper.init b none cf file now ma : RequestsHelper α).getReq now t ep par =
        (.ok p 1, RequestsHelper.init b none cf file now ma) ∧
    (((RequestsHelper.init b none cf file now ma : RequestsHelper α).getReq now t ep
        par).2.getReq now t ep par).1 = .ok p 1 ∧
    (RequestsHelper.init b (some exp) cf file now ma : RequestsHelper α).cache =
        some (loadCache cf exp file now) ∧
    (loadCache cf exp file now : JsonCache α).expiry_seconds = exp := by
  have hcall : callWithRetry t ma = .ok p 1 := callWithRetry_success_first hma ht
  have hg : (RequestsHelper.init b none cf file now ma : RequestsHelper α).getReq now t ep par =
      (.ok p 1, RequestsHelper.init b none cf file now ma) := by
    unfold RequestsHelper.getReq RequestsHelper.init
    simp [hcall]
  refine ⟨rfl, hg, ?_, rfl, rfl⟩
  simp [hg]

/-- C9 witness: the no-TTL and with-TTL constructions at concrete inputs. -/
theorem claim_C9_witness :
    (RequestsHelper.init "https://api.example.com" none "f"
        (none : Option (List (CacheKey × CacheEntry String))) 0 3).cache = none ∧
    (RequestsHelper.init "https://api.example.com" none "f"
        (none : Option (List (CacheKey × CacheEntry String))) 0 3).getReq 0 okTransport
        "/test" none =
      (.ok "P" 1, RequestsHelper.init "https://api.example.com" none "f" none 0 3) ∧
    (((RequestsHelper.init "https://api.example.com" none "f"
        (none : Option (List (CacheKey × CacheEntry String))) 0 3).getReq 0 okTransport
        "/test" none).2.getReq 0 okTransport "/test" none).1 = .ok "P" 1 ∧
    (RequestsHelper.init "https://api.example.com" (some 3600) "f"
        (none : Option (List (CacheKey × CacheEntry String))) 0 3).cache =
      some (loadCache "f" 3600 none 0) ∧
    (loadCache "f" 3600 (none : Option (List (CacheKey × CacheEntry String)))
        0).expiry_seconds = 3600 :=
  claim_C9 "https://api.example.com" "f" none 0 3 3600 okTransport "P" "/test" none
    (by decide) rfl

/-- C2: with caching enabled, a fresh cached entry is returned with no
transport call; on a miss the transport runs once and the result is stored,
so a second identical get within the TTL makes no transport call and returns
the stored payload, while a get with different params (a different key, not
otherwise cached) calls the transport again. -/
theorem claim_C2 {α : Type} (h : RequestsHelper α) (c : JsonCache α) (t t2 : ℕ → Outcome α)
    (now now2 : ℚ) (ep : String) (par par2 : Option Params) (p p2 : α)
    (hc : h.cache = some c) (hma : 1 ≤ h.max_attempts) (ht : t 0 = .success p) :
    (∀ v, c.get now "GET" ep par = some v → h.getReq now t ep par = (.ok v 0, h)) ∧
    (c.get now "GET" ep par = none →
      h.getReq now t ep par =
          (.ok p 1, { h with cache := some (c.set now "GET" ep p par) }) ∧
      (¬ c.expiry_seconds ≤ now2 - now →
          ((h.getReq now t ep par).2.getReq now2 t2 ep par).1 = .ok p 0) ∧
      (generate_key "GET" ep par2 ≠ generate_key "GET" ep par →
        c.get now2 "GET" ep par2 = none → t2 0 = .success p2 →
          ((h.getReq now t ep par).2.getReq now2 t2 ep par2).1 = .ok p2 1)) := by
  have hcall : callWithRetry t h.max_attempts = .ok p 1 := callWithRetry_success_first hma ht
  constructor
  · intro v hv
    unfold RequestsHelper.getReq
    rw [hc]
    simp [hv]
  · intro hm
    have hreq : h.getReq now t ep par =
        (.ok p 1, { h with cache := some (c.set now "GET" ep p par) }) := by
      unfold RequestsHelper.getReq
      rw [hc]
      simp [hm, hcall]
    refine ⟨hreq, ?_, ?_⟩
    · intro hfresh
      rw [hreq]
      have hgs : (c.set now "GET" ep p par).get now2 "GET" ep par = some p :=
        get_set_self c now now2 "GET" ep p par hfresh
      unfold RequestsHelper.getReq
      simp [hgs]
    · intro hkne hm2 ht2
      rw [hreq]
      have hgs : (c.set now "GET" ep p par).get now2 "GET" ep par2 = none := by
        rw [get_set_ne c now now2 p hkne]
        exact hm2
      have hcall2 : callWithRetry t2 h.max_attempts = .ok p2 1 :=
        callWithRetry_success_first hma ht2
      unfold RequestsHelper.getReq
      simp [hgs, hcall2]

/-- C2 witness: the caching scenario of `test_get_with_cache` — first get
calls the transport once and stores, the identical get at 0.5s is served
from cache with no call, and a get with different params calls again. -/
theorem claim_C2_witness :
    cacheHelper.getReq 0 okTransport "/test" (some [("param", "value")]) =
      (.ok "P" 1,
        { cacheHelper with
          cache := some (emptyStore.set 0 "GET" "/test" "P" (some [("param", "value")])) }) ∧
    ((cacheHelper.getReq 0 okTransport "/test" (some [("param", "value")])).2.getReq
        (Rat.mk' 1 2) okTransport "/test" (some [("param", "value")])).1 = .ok "P" 0 ∧
    ((cacheHelper.getReq 0 okTransport "/test" (some [("param", "value")])).2.getReq
        (Rat.mk' 1 2) okTransport "/test" (some [("param", "different")])).1 = .ok "P" 1 :=
  ⟨((claim_C2 cacheHelper emptyStore okTransport okTransport 0 (Rat.mk' 1 2) "/test"
      (some [("param", "value")]) (some [("param", "different")]) "P" "P" rfl (by decide)
      rfl).2 (by decide)).1,
   ((claim_C2 cacheHelper emptyStore okTransport okTransport 0 (Rat.mk' 1 2) "/test"
      (some [("param", "value")]) (some [("param", "different")]) "P" "P" rfl (by decide)
      rfl).2 (by decide)).2.1 ((entryExpired_eq_false_iff _ _ _).mp (by decide)),
   ((claim_C2 cacheHelper emptyStore okTransport okTransport 0 (Rat.mk' 1 2) "/test"
      (some [("param", "value")]) (some [("param", "different")]) "P" "P" rfl (by decide)
      rfl).2 (by decide)).2.2 (by decide) (by decide) rfl⟩

/-- C1: a successful post/put/delete with caching enabled replaces the cache
by `clear(endpoint=scope)` where the scope is `cache_clear_path` if given and
the call's own endpoint otherwise; that clear removes exactly the entries
whose stored endpoint equals the scope (all HTTP methods) and leaves every
entry at any other endpoint unchanged. -/
theorem claim_C1 {α β : Type} (h : RequestsHelper α) (c : JsonCache α) (t : ℕ → Outcome α)
    (ep : String) (body : β) (ccp : Option String) (p : α) (n : ℕ)
    (hc : h.cache = some c) (hcall : callWithRetry t h.max_attempts = .ok p n) :
    (h.post t ep body ccp).1 = .ok p n ∧
    (h.post t ep body ccp).2.cache = some (c.clear none (some (ccp.getD ep))) ∧
    (h.put t ep body ccp).2.cache = some (c.clear none (some (ccp.getD ep))) ∧
    (h.delete t ep ccp).2.cache = some (c.clear none (some (ccp.getD ep))) ∧
    (∀ kv : CacheKey × CacheEntry α,
        kv ∈ (c.clear none (some (ccp.getD ep))).cache_data ↔
          kv ∈ c.cache_data ∧ ¬ kv.2.endpoint = ccp.getD ep) := by
  have hm : h.mutReq t ep ccp =
      (.ok p n, { h with cache := some (c.clear none (some (ccp.getD ep))) }) := by
    unfold RequestsHelper.mutReq
    rw [hcall, hc]
  refine ⟨?_, ?_, ?_, ?_, ?_⟩
  · show (h.mutReq t ep ccp).1 = CallResult.ok p n
    rw [hm]
  · show (h.mutReq t ep ccp).2.cache = _
    rw [hm]
  · show (h.mutReq t ep ccp).2.cache = _
    rw [hm]
  · show (h.mutReq t ep ccp).2.cache = _
    rw [hm]
  · intro kv
    rw [mem_clear_iff]
    simp [entryMatches]

/-- C1 witness: the `test_post_with_cache_clear_path` scenario — after a POST
to `/api/events/123` with `cache_clear_path="/api/events"`, the GET cached at
`/api/events` is dropped while `/api/events/123` and `/api/users` remain. -/
theorem claim_C1_witness :
    (eventsHelper.post okTransport "/api/events/123" "body" (some "/api/events")).2.cache =
      some (eventsStore.clear none (some "/api/events")) ∧
    (eventsStore.clear none (some "/api/events")).get 0 "GET" "/api/events" none = none ∧
    (eventsStore.clear none (some "/api/events")).get 0 "GET" "/api/events/123" none =
      some "specific" ∧
    (eventsStore.clear none (some "/api/events")).get 0 "GET" "/api/users" none =
      some "users" :=
  ⟨(claim_C1 eventsHelper eventsStore okTransport "/api/events/123" "body"
      (some "/api/events") "P" 1 rfl (by decide)).2.1,
   by decide, by decide, by decide⟩

/-- C7: a new store over a persisted file loads exactly the entries younger
than the TTL at load time; in particular a value set by a first instance and
still fresh is returned unchanged by the second instance, and an over-aged
entry in the file is absent while the rest remain. -/
theorem claim_C7 {α : Type} (c : JsonCache α) (cf : String) (exp : ℚ)
    (tset tload tget : ℚ) (m e : String) (d : α) (p : Option Params)
    (hnd : NodupKeys c.cache_data)
    (hload : ¬ exp ≤ tload - tset) (hget : ¬ exp ≤ tget - tset) :
    (loadCache cf exp (some (saveCache (c.set tset m e d p))) tload).get tget m e p =
      some d ∧
    (∀ (file : List (CacheKey × CacheEntry α)) (kv : CacheKey × CacheEntry α),
        kv ∈ (loadCache cf exp (some file) tload : JsonCache α).cache_data ↔
          kv ∈ file ∧ ¬ exp ≤ tload - kv.2.timestamp) := by
  constructor
  · have hnd2 : NodupKeys (c.set tset m e d p).cache_data := nodupKeys_insertEntry hnd
    have hlk := lookupEntry_filter hnd2 (fun kv => ! entryExpired exp kv.2.timestamp tload)
      (generate_key m e p)
    have hself : lookupEntry (c.set tset m e d p).cache_data (generate_key m e p) =
        some { data := d, timestamp := tset, method := upper m, endpoint := e,
               params := p.map canonicalize } := lookupEntry_insertEntry_self _ _ _
    have hcd : (loadCache cf exp (some (saveCache (c.set tset m e d p))) tload :
        JsonCache α).cache_data =
        (c.set tset m e d p).cache_data.filter
          (fun kv => ! entryExpired exp kv.2.timestamp tload) := rfl
    unfold JsonCache.get
    rw [hcd, hlk, hself]
    have hb : entryExpired exp tset tload = false :=
      (entryExpired_eq_false_iff _ _ _).mpr hload
    have hb2 : entryExpired exp tset tget = false :=
      (entryExpired_eq_false_iff _ _ _).mpr hget
    simp [hb, JsonCache.isExpiredAt, loadCache, hb2]
  · intro file kv
    have hcd : (loadCache cf exp (some file) tload : JsonCache α).cache_data =
        file.filter (fun kv => ! entryExpired exp kv.2.timestamp tload) := rfl
    rw [hcd, List.mem_filter]
    simp [entryExpired_eq_false_iff]

/-- C7 witness: persistence of a fresh value across a reload at 0.5s, and
cleanup-on-load dropping a 25-second-old entry but keeping a 5-second-old one
under a 10-second TTL. -/
theorem claim_C7_witness :
    (loadCache "cache.json" 1
        (some (saveCache (emptyStore.set 0 "GET" "/test" "value" none)))
        (Rat.mk' 1 2)).get (Rat.mk' 1 2) "GET" "/test" none = some "value" ∧
    (loadCache "cache.json" 10
        (some [(generate_key "GET" "/expired" none,
                  { data := "old", timestamp := 5, method := "GET", endpoint := "/expired",
                    params := none }),
               (generate_key "GET" "/test1" none,
                  { data := "1", timestamp := 25, method := "GET", endpoint := "/test1",
                    params := none })]) 30 : JsonCache String).cache_data =
      [(generate_key "GET" "/test1" none,
          { data := "1", timestamp := 25, method := "GET", endpoint := "/test1",
            params := none })] :=
  ⟨(claim_C7 emptyStore "cache.json" 1 0 (Rat.mk' 1 2) (Rat.mk' 1 2) "GET" "/test" "value"
      none (by decide) ((entryExpired_eq_false_iff _ _ _).mp (by decide))
      ((entryExpired_eq_false_iff _ _ _).mp (by decide))).1,
   by decide⟩

end RyUtils
